import Mathlib

/-!
Shallow embedding of the nuka-carousel core: adaptive height coordination
(from packages/nuka/src/hooks/use-frame-height.ts) and the carousel
controller, index arithmetic and gesture tracking (from the compiled
carousel module). Numbers carried by the UI (pixel offsets, heights,
friction) are modelled as rationals; slide indices and counts as integers.
-/

namespace Nuka

/-! ## Adaptive height coordinator (use-frame-height.ts) -/

/-- Entry of the visible-heights collection: a slide index together with its
measured pixel height. Mirrors the SlideHeight record in the source. -/
structure SlideHeight where
  slideIndex : ℤ
  height : ℚ
deriving DecidableEq, Repr

/-- State owned by the useFrameHeight hook: the visibleHeights collection and
the sticky initializedAdaptiveHeight flag. -/
structure FrameHeightState where
  visibleHeights : List SlideHeight
  initializedAdaptiveHeight : Bool
deriving DecidableEq, Repr

/-- Initial hook state: empty collection, not yet initialized. -/
def initialFrameHeightState : FrameHeightState := ⟨[], false⟩

/-- Initialization threshold used by the hook:
Math.min(numSlides, Math.ceil(slidesToShow)). -/
def adaptiveThreshold (numSlides : ℕ) (slidesToShow : ℚ) : ℤ :=
  min (numSlides : ℤ) ⌈slidesToShow⌉

/-- One call of handleVisibleSlideHeightChange(slideIndex, height).
A null height (none) removes every entry with that index; a numeric height
replaces the entry in place when the index is already present, and appends a
new entry otherwise. Afterwards, if the new collection has at least
min(numSlides, ceil(slidesToShow)) entries, initializedAdaptiveHeight is set
to true (it is never reset, matching the one-way setState in the source). -/
def handleVisibleSlideHeightChange (numSlides : ℕ) (slidesToShow : ℚ)
    (s : FrameHeightState) (slideIndex : ℤ) (height : Option ℚ) :
    FrameHeightState :=
  let latest := s.visibleHeights
  let newVisibleHeights :=
    match height with
    | none => latest.filter (fun sh => decide (sh.slideIndex ≠ slideIndex))
    | some h =>
        let foundSlide := latest.any (fun sh => decide (sh.slideIndex = slideIndex))
        if foundSlide then
          latest.map (fun hi =>
            if hi.slideIndex = slideIndex then ⟨slideIndex, h⟩ else hi)
        else
          latest ++ [⟨slideIndex, h⟩]
  ⟨newVisibleHeights,
    s.initializedAdaptiveHeight ||
      decide ((newVisibleHeights.length : ℤ) ≥ adaptiveThreshold numSlides slidesToShow)⟩

/-- Fold a sequence of height-change events (slideIndex, height) through the
hook, starting from the initial state. -/
def runHeightEvents (numSlides : ℕ) (slidesToShow : ℚ)
    (es : List (ℤ × Option ℚ)) : FrameHeightState :=
  es.foldl (fun s e => handleVisibleSlideHeightChange numSlides slidesToShow s e.1 e.2)
    initialFrameHeightState

/-- Math.max(0, ...visibleHeights.map(h => h.height)): the maximum of 0 and
all registered heights. -/
def maxVisibleHeight (l : List SlideHeight) : ℚ :=
  l.foldr (fun sh acc => max sh.height acc) 0

/-- CSS height of the frame container: either the keyword auto, or a pixel
value rendered as a px string in the source. -/
inductive CSSHeight where
  | auto : CSSHeight
  | px : ℚ → CSSHeight
deriving DecidableEq, Repr

/-- The frameHeight memo of the hook: auto when adaptiveHeight is off or the
coordinator is not yet initialized; once initialized, the px rendering of
Math.max(0, ...heights). -/
def frameHeight (adaptiveHeight : Bool) (s : FrameHeightState) : CSSHeight :=
  if adaptiveHeight then
    if !s.initializedAdaptiveHeight then CSSHeight.auto
    else CSSHeight.px (maxVisibleHeight s.visibleHeights)
  else CSSHeight.auto

/-- Indices from which a numeric (non-null) height report has been received,
without repetition. This follows the wording of the specification claim
(distinct slide indices reported at least once), for comparison against the
implementation, which instead counts the currently registered entries. -/
def claimReportedIndices (es : List (ℤ × Option ℚ)) : List ℤ :=
  (es.filterMap (fun e => e.2.map (fun _ => e.1))).dedup

/-! ## Index arithmetic and carousel controller (compiled carousel module) -/

/-- getNextIndex(toIdx): resolves toIdx ?? currentSlide, then wraps a negative
index by adding count, maps an index equal to count to 0, and otherwise
returns the index unchanged. -/
def getNextIndex (toIdx : Option ℤ) (currentSlide count : ℤ) : ℤ :=
  let index := toIdx.getD currentSlide
  if index < 0 then index + count
  else if index = count then 0
  else index

/-- Settle delay used by moveSlide: the configured speed with the JS
falsy-default (speed || 500), or 40 when animation is disabled. -/
def settleSpeed (disableAnimation : Bool) (speed : ℕ) : ℕ :=
  if !disableAnimation then (if speed = 0 then 500 else speed) else 40

/-- Delay base used by the wrap-around correction effect: speed || 500, or 0
when animation is disabled. -/
def wrapCorrectionSpeed (disableAnimation : Bool) (speed : ℕ) : ℕ :=
  if !disableAnimation then (if speed = 0 then 500 else speed) else 0

/-- Outcome of one moveSlide(toIdx) call: the slide index that is set, whether
the animation flag is raised, whether the beforeSlide and afterSlide
callbacks fire (they fire exactly when toIdx is a number; afterSlide fires in
the settle timeout, assuming the component is still mounted), the index
passed to afterSlide, and the settle delay. The first argument of
beforeSlide comes from the getIndexes helper, which lives outside the
carousel module and is not needed by any property here, so it is not
tracked. -/
structure MoveResult where
  newSlide : ℤ
  animationStarted : Bool
  beforeSlideInvoked : Bool
  afterSlideInvoked : Bool
  normalizedTarget : ℤ
  settleDelayMs : ℕ
deriving DecidableEq, Repr

/-- moveSlide(toIdx): sets the index to toIdx ?? currentSlide, raises the
animation flag unless animation is disabled, and fires the before/after
callbacks exactly when toIdx is a number. -/
def moveSlide (toIdx : Option ℤ) (disableAnimation : Bool) (speed : ℕ)
    (currentSlide : ℤ) (count : ℤ) : MoveResult :=
  ⟨toIdx.getD currentSlide, !disableAnimation, toIdx.isSome, toIdx.isSome,
    getNextIndex toIdx currentSlide count, settleSpeed disableAnimation speed⟩

/-- Modelled from the spec: getNextMoveIndex lives in the utils module,
which is not part of the provided sources. Per the specification, it
advances by slidesToScroll and, when wrap-around is disabled, clamps so the
last visible window does not exceed count minus slidesToShow. The scrollMode
argument of the real helper is not described by the specification and is
omitted. -/
def getNextMoveIndex (wrapAround : Bool) (currentSlide count slidesToScroll slidesToShow : ℤ) : ℤ :=
  if wrapAround then currentSlide + slidesToScroll
  else min (currentSlide + slidesToScroll) (count - slidesToShow)

/-- Modelled from the spec: getPrevMoveIndex lives in the utils module,
which is not part of the provided sources. Per the specification, it steps
backward by slidesToScroll and, without wrap-around, floors at 0. The
scrollMode argument of the real helper is omitted as undescribed. -/
def getPrevMoveIndex (wrapAround : Bool) (currentSlide slidesToScroll : ℤ) : ℤ :=
  if wrapAround then currentSlide - slidesToScroll
  else max (currentSlide - slidesToScroll) 0

/-- nextSlide(): when wrapAround holds or currentSlide < count −
slidesToScroll, delegates to getNextMoveIndex and moveSlide; otherwise calls
moveSlide with no argument. -/
def nextSlide (wrapAround disableAnimation : Bool) (speed : ℕ)
    (currentSlide count slidesToScroll slidesToShow : ℤ) : MoveResult :=
  if wrapAround = true ∨ currentSlide < count - slidesToScroll then
    moveSlide (some (getNextMoveIndex wrapAround currentSlide count slidesToScroll slidesToShow))
      disableAnimation speed currentSlide count
  else
    moveSlide none disableAnimation speed currentSlide count

/-- prevSlide(): when wrapAround holds or currentSlide > 0, delegates to
getPrevMoveIndex and moveSlide; otherwise calls moveSlide with no
argument. -/
def prevSlide (wrapAround disableAnimation : Bool) (speed : ℕ)
    (currentSlide count slidesToScroll : ℤ) : MoveResult :=
  if wrapAround = true ∨ currentSlide > 0 then
    moveSlide (some (getPrevMoveIndex wrapAround currentSlide slidesToScroll))
      disableAnimation speed currentSlide count
  else
    moveSlide none disableAnimation speed currentSlide count

/-- Body of the generic wrap-around correction effect, keyed on
currentSlide. It is guarded by wrapAround AND NOT autoplay. When the index
is at or below −slidesToShow it schedules, after speed + 10 ms, setting the
index to count + currentSlide (written count − −currentSlide in the source);
otherwise, when the index is at or beyond count, it schedules setting the
index to currentSlide − count. Returns the scheduled delay and target index,
or none when nothing is scheduled. -/
def wrapAroundCorrection (wrapAround autoplay disableAnimation : Bool) (speed : ℕ)
    (slidesToShow count currentSlide : ℤ) : Option (ℕ × ℤ) :=
  if wrapAround && !autoplay then
    let sp := wrapCorrectionSpeed disableAnimation speed
    if currentSlide ≤ -slidesToShow then some (sp + 10, count + currentSlide)
    else if currentSlide ≥ count then some (sp + 10, currentSlide - count)
    else none
  else none

/-- Body of the autoplay-specific correction effect, keyed on animation and
currentSlide. It is guarded by autoplay AND NOT animation AND wrapAround.
When the index strictly exceeds count it immediately sets the index to
currentSlide − count and clears the pending timer (when one exists); when
the index is strictly below 0 it immediately sets the index to
count + currentSlide and clears the timer likewise. The first component is
the index update (none when untouched); the second reports whether a
pending timer was cleared, given whether one was pending. -/
def autoplayWrapCorrection (autoplay animation wrapAround : Bool)
    (count currentSlide : ℤ) (timerPending : Bool) : Option ℤ × Bool :=
  if autoplay && !animation && wrapAround then
    if currentSlide > count then (some (currentSlide - count), timerPending)
    else if currentSlide < 0 then (some (count + currentSlide), timerPending)
    else (none, false)
  else (none, false)

/-- Initial value of the currentSlide state on mount:
autoplayReverse ? count − slidesToShow : slideIndex. -/
def initialCurrentSlide (autoplayReverse : Bool) (count slidesToShow slideIndex : ℤ) : ℤ :=
  if autoplayReverse then count - slidesToShow else slideIndex

/-! ## Gesture tracker -/

/-- Drag threshold: (carouselWidth.current || 0) / slidesToShow / 2, where
the width ref may still be null. -/
def dragThreshold (carouselWidth : Option ℚ) (slidesToShow : ℚ) : ℚ :=
  carouselWidth.getD 0 / slidesToShow / 2

/-- Which navigation the drag-end handler performs. -/
inductive DragEndAction where
  | ignored : DragEndAction
  | settleCurrent : DragEndAction
  | goNext : DragEndAction
  | goPrev : DragEndAction
deriving DecidableEq, Repr

/-- Outcome of handleDragEnd: the action taken (moveSlide with no argument,
nextSlide, or prevSlide), the dragging flag, and the move and prevMove
bookkeeping values afterwards. -/
structure DragEndResult where
  action : DragEndAction
  dragging : Bool
  move : ℚ
  prevMove : ℚ
deriving DecidableEq, Repr

/-- handleDragEnd: ignored unless dragging is enabled and a drag is active;
otherwise clears the dragging flag, settles back via moveSlide() when
|move| ≤ threshold, advances via nextSlide() when the offset is positive
past the threshold, retreats via prevSlide() when negative past it, and in
every branch resets move and prevMove to 0. -/
def handleDragEnd (draggingProp draggingState : Bool) (move prevMove threshold : ℚ) :
    DragEndResult :=
  if !(draggingProp && draggingState) then ⟨DragEndAction.ignored, draggingState, move, prevMove⟩
  else if |move| ≤ threshold then ⟨DragEndAction.settleCurrent, false, 0, 0⟩
  else if move > 0 then ⟨DragEndAction.goNext, false, 0, 0⟩
  else ⟨DragEndAction.goPrev, false, 0, 0⟩

/-- Outcome of handlePointerMove: the move and prevMove values afterwards
and whether the handler finalized the gesture early via handleDragEnd. -/
structure PointerMoveResult where
  move : ℚ
  prevMove : ℚ
  endedDrag : Bool
deriving DecidableEq, Repr

/-- handlePointerMove(m): ignored unless dragging is enabled and active.
Applies the 0.75 friction to the raw delta m, forms the candidate offset
move + (0.75 m − prevMove), finalizes early via handleDragEnd when |move|
already exceeds the threshold, freezes the offset at a sticky edge (wrap
disabled, edge swiping disabled, dragging past either end) while still
advancing prevMove, and otherwise commits the candidate only when prevMove
was nonzero, always advancing prevMove to the frictioned delta. -/
def handlePointerMove (draggingProp draggingState wrapAround disableEdgeSwiping : Bool)
    (currentSlide count slidesToShow : ℤ) (threshold move prevMove m : ℚ) :
    PointerMoveResult :=
  if !(draggingProp && draggingState) then ⟨move, prevMove, false⟩
  else
    let moveValue := m * (3 / 4 : ℚ)
    let moveState := move + (moveValue - prevMove)
    if |move| > threshold then
      let r := handleDragEnd draggingProp draggingState move prevMove threshold
      ⟨r.move, r.prevMove, true⟩
    else if wrapAround = false ∧ disableEdgeSwiping = true ∧
        ((currentSlide ≤ 0 ∧ moveState ≤ 0) ∨
          (moveState > 0 ∧ currentSlide ≥ count - slidesToShow)) then
      ⟨move, moveValue, false⟩
    else if prevMove ≠ 0 then ⟨moveState, moveValue, false⟩
    else ⟨move, moveValue, false⟩

/-! ## Helper lemmas -/

/-- Projection of the collection after a null (deregistration) report. -/
lemma hvshc_none (n : ℕ) (stw : ℚ) (s : FrameHeightState) (i : ℤ) :
    (handleVisibleSlideHeightChange n stw s i none).visibleHeights =
      s.visibleHeights.filter (fun sh => decide (sh.slideIndex ≠ i)) := rfl

/-- Projection of the collection after a numeric report. -/
lemma hvshc_some (n : ℕ) (stw : ℚ) (s : FrameHeightState) (i : ℤ) (h : ℚ) :
    (handleVisibleSlideHeightChange n stw s i (some h)).visibleHeights =
      if s.visibleHeights.any (fun sh => decide (sh.slideIndex = i)) then
        s.visibleHeights.map (fun hi => if hi.slideIndex = i then ⟨i, h⟩ else hi)
      else s.visibleHeights ++ [⟨i, h⟩] := rfl

/-- Projection of the initialization flag after any report: the previous flag
or-ed with the new threshold comparison. -/
lemma hvshc_initialized (n : ℕ) (stw : ℚ) (s : FrameHeightState) (i : ℤ) (ht : Option ℚ) :
    (handleVisibleSlideHeightChange n stw s i ht).initializedAdaptiveHeight =
      (s.initializedAdaptiveHeight ||
        decide (((handleVisibleSlideHeightChange n stw s i ht).visibleHeights.length : ℤ) ≥
          adaptiveThreshold n stw)) := by
  cases ht <;> rfl

/-- Replacing an entry in place does not change the sequence of slide
indices. -/
lemma replace_map_slideIndex (l : List SlideHeight) (i : ℤ) (h : ℚ) :
    ((l.map fun hi => if hi.slideIndex = i then (⟨i, h⟩ : SlideHeight) else hi).map
      SlideHeight.slideIndex) = l.map SlideHeight.slideIndex := by
  induction l with
  | nil => rfl
  | cons a t ih => by_cases hc : a.slideIndex = i <;> simp [hc, ih]

/-- One handleVisibleSlideHeightChange call preserves distinctness of the
registered slide indices. -/
lemma step_nodup (n : ℕ) (stw : ℚ) (s : FrameHeightState) (i : ℤ) (ht : Option ℚ)
    (hnd : (s.visibleHeights.map SlideHeight.slideIndex).Nodup) :
    ((handleVisibleSlideHeightChange n stw s i ht).visibleHeights.map
      SlideHeight.slideIndex).Nodup := by
  cases ht with
  | none =>
      rw [hvshc_none]
      exact ((List.filter_sublist _).map SlideHeight.slideIndex).nodup hnd
  | some h =>
      rw [hvshc_some]
      by_cases hf : s.visibleHeights.any (fun sh => decide (sh.slideIndex = i)) = true
      · rw [if_pos hf, replace_map_slideIndex]
        exact hnd
      · rw [if_neg hf]
        have hni : i ∉ s.visibleHeights.map SlideHeight.slideIndex := by
          intro hmem
          rw [List.mem_map] at hmem
          obtain ⟨sh, hsh, hEq⟩ := hmem
          exact hf (List.any_eq_true.mpr ⟨sh, hsh, by simp [hEq]⟩)
        rw [List.map_append]
        refine hnd.append (List.nodup_singleton i) ?_
        intro a ha hb
        simp only [List.map_cons, List.map_nil, List.mem_singleton] at hb
        subst hb
        exact hni ha

/-- Folding any event sequence preserves distinctness of the registered
slide indices. -/
lemma run_nodup_aux (n : ℕ) (stw : ℚ) (es : List (ℤ × Option ℚ)) :
    ∀ s : FrameHeightState, (s.visibleHeights.map SlideHeight.slideIndex).Nodup →
      ((es.foldl (fun s e => handleVisibleSlideHeightChange n stw s e.1 e.2)
          s).visibleHeights.map SlideHeight.slideIndex).Nodup := by
  induction es with
  | nil => exact fun s h => h
  | cons e t ih => exact fun s h => ih _ (step_nodup n stw s e.1 e.2 h)

/-- maxVisibleHeight is the maximum of 0 and the registered heights: it is
nonnegative and bounds every registered height. -/
lemma maxVisibleHeight_spec (l : List SlideHeight) :
    0 ≤ maxVisibleHeight l ∧ ∀ sh ∈ l, sh.height ≤ maxVisibleHeight l := by
  induction l with
  | nil => exact ⟨le_refl 0, by simp⟩
  | cons a t ih =>
      have hcons : maxVisibleHeight (a :: t) = max a.height (maxVisibleHeight t) := rfl
      refine ⟨?_, ?_⟩
      · rw [hcons]
        exact le_trans ih.1 (le_max_right _ _)
      · intro sh hsh
        rw [List.mem_cons] at hsh
        rcases hsh with rfl | hmem
        · rw [hcons]
          exact le_max_left _ _
        · rw [hcons]
          exact le_trans (ih.2 sh hmem) (le_max_right _ _)

/-! ## Claim theorems -/

/-- C7: getNextIndex returns index + count for a negative index, 0 for an
index equal to count, and the index unchanged otherwise; consequently, for
every positive count and index in [0, count), the result stays in
[0, count). -/
theorem getNextIndex_spec (cs count i : ℤ) :
    (i < 0 → getNextIndex (some i) cs count = i + count) ∧
    (0 ≤ i → i = count → getNextIndex (some i) cs count = 0) ∧
    (0 ≤ i → i ≠ count → getNextIndex (some i) cs count = i) ∧
    (0 < count → 0 ≤ i → i < count →
      0 ≤ getNextIndex (some i) cs count ∧ getNextIndex (some i) cs count < count) := by
  refine ⟨fun h => ?_, fun h1 h2 => ?_, fun h1 h2 => ?_, fun h1 h2 h3 => ?_⟩ <;>
    simp only [getNextIndex, Option.getD_some] <;> split_ifs <;> omega

/-- Witness for C7 at count 5: wrapping −2 to 3, mapping 5 to 0, fixing 3,
and the in-range consequence at 3. -/
theorem getNextIndex_spec_witness :
    getNextIndex (some (-2)) 0 5 = 3 ∧ getNextIndex (some 5) 0 5 = 0 ∧
    getNextIndex (some 3) 0 5 = 3 ∧
    (0 ≤ getNextIndex (some 3) 0 5 ∧ getNextIndex (some 3) 0 5 < 5) :=
  ⟨by have h := (getNextIndex_spec 0 5 (-2)).1 (by norm_num); omega,
   (getNextIndex_spec 0 5 5).2.1 (by norm_num) rfl,
   (getNextIndex_spec 0 5 3).2.2.1 (by norm_num) (by norm_num),
   (getNextIndex_spec 0 5 3).2.2.2 (by norm_num) (by norm_num) (by norm_num)⟩

/-- C8: moveSlide with no argument leaves the index unchanged and fires
neither slide callback, and doing it twice in a row behaves the same. -/
theorem moveSlide_noarg_idempotent (d : Bool) (sp : ℕ) (cs count : ℤ) :
    (moveSlide none d sp cs count).newSlide = cs ∧
    (moveSlide none d sp cs count).beforeSlideInvoked = false ∧
    (moveSlide none d sp cs count).afterSlideInvoked = false ∧
    (moveSlide none d sp (moveSlide none d sp cs count).newSlide count).newSlide = cs ∧
    (moveSlide none d sp (moveSlide none d sp cs count).newSlide count).beforeSlideInvoked =
      false ∧
    (moveSlide none d sp (moveSlide none d sp cs count).newSlide count).afterSlideInvoked =
      false := by
  simp [moveSlide]

/-- C10: on mount the initial index is count − slidesToShow when
autoplayReverse is set, and the configured slideIndex otherwise. -/
theorem initialCurrentSlide_spec (count slidesToShow slideIndex : ℤ) :
    initialCurrentSlide true count slidesToShow slideIndex = count - slidesToShow ∧
    initialCurrentSlide false count slidesToShow slideIndex = slideIndex := by
  simp [initialCurrentSlide]

/-- C2: on drag end with an active drag, the threshold is half the frame
width per shown slide; at or under it the carousel settles back via
moveSlide with no argument, above it nextSlide fires, below its negation
prevSlide fires, and move and prevMove reset to 0 in every branch. With
width 300 and slidesToShow 3 the threshold is 50, so 51 advances and 49
settles. -/
theorem handleDragEnd_threshold (move prevMove width stw : ℚ)
    (hw : 0 ≤ width) (hs : 0 < stw) :
    (|move| ≤ dragThreshold (some width) stw →
      handleDragEnd true true move prevMove (dragThreshold (some width) stw) =
        ⟨DragEndAction.settleCurrent, false, 0, 0⟩) ∧
    (move > dragThreshold (some width) stw →
      handleDragEnd true true move prevMove (dragThreshold (some width) stw) =
        ⟨DragEndAction.goNext, false, 0, 0⟩) ∧
    (move < -dragThreshold (some width) stw →
      handleDragEnd true true move prevMove (dragThreshold (some width) stw) =
        ⟨DragEndAction.goPrev, false, 0, 0⟩) ∧
    dragThreshold (some 300) 3 = 50 ∧
    (handleDragEnd true true 51 0 (dragThreshold (some 300) 3)).action =
      DragEndAction.goNext ∧
    (handleDragEnd true true 49 0 (dragThreshold (some 300) 3)).action =
      DragEndAction.settleCurrent := by
  have hθ : 0 ≤ dragThreshold (some width) stw := by
    unfold dragThreshold
    rw [Option.getD_some]
    exact div_nonneg (div_nonneg hw hs.le) (by norm_num)
  have hth : dragThreshold (some 300) 3 = 50 := by
    unfold dragThreshold
    rw [Option.getD_some]
    norm_num
  refine ⟨fun h => ?_, fun h => ?_, fun h => ?_, hth, ?_, ?_⟩
  · simp [handleDragEnd, h]
  · have h0 : 0 < move := lt_of_le_of_lt hθ h
    have h1 : ¬ |move| ≤ dragThreshold (some width) stw :=
      not_le.mpr (lt_of_lt_of_le h (le_abs_self move))
    simp [handleDragEnd, h1, h0]
  · have hneg : move < 0 := lt_of_lt_of_le h (neg_nonpos.mpr hθ)
    have h1 : ¬ |move| ≤ dragThreshold (some width) stw := by
      refine not_le.mpr (lt_of_lt_of_le ?_ (neg_le_abs move))
      linarith
    simp [handleDragEnd, h1, not_lt.mpr hneg.le]
  · rw [hth]
    norm_num [handleDragEnd]
  · rw [hth]
    norm_num [handleDragEnd]

/-- Witness for C2: at width 300 and three slides shown, an offset of 51
advances and 49 settles back, with the bookkeeping reset. -/
theorem handleDragEnd_threshold_witness :
    handleDragEnd true true 51 7 (dragThreshold (some 300) 3) =
      ⟨DragEndAction.goNext, false, 0, 0⟩ ∧
    handleDragEnd true true 49 7 (dragThreshold (some 300) 3) =
      ⟨DragEndAction.settleCurrent, false, 0, 0⟩ :=
  ⟨(handleDragEnd_threshold 51 7 300 3 (by norm_num) (by norm_num)).2.1
      (by norm_num [dragThreshold]),
   (handleDragEnd_threshold 49 7 300 3 (by norm_num) (by norm_num)).1
      (by rw [abs_of_nonneg]; norm_num [dragThreshold]; norm_num)⟩

/-- C3 counterexample: with wrap-around enabled but autoplay also enabled
(slidesToShow 1, count 5, index −1 ≤ −slidesToShow), the generic wrap
correction effect schedules nothing, because its body is additionally
guarded by autoplay being off; the claim predicts a correction scheduled
after settle-speed + 10 ms. -/
theorem wrapCorrection_autoplay_cex :
    ((-1 : ℤ) ≤ -(1 : ℤ)) ∧
    wrapAroundCorrection true true false 500 1 5 (-1) = none := by
  exact ⟨le_refl _, rfl⟩

/-- C3 amended: with wrap-around enabled and autoplay disabled, the wrap
correction effect schedules, after settle-speed + 10 ms, setting the index
to count + index when the index is at most −slidesToShow, and otherwise to
index − count when the index is at least count; from −slidesToShow exactly
the corrected index is count − slidesToShow. -/
theorem wrapCorrection_spec (d : Bool) (sp : ℕ) (stw count cs : ℤ) :
    (cs ≤ -stw →
      wrapAroundCorrection true false d sp stw count cs =
        some (wrapCorrectionSpeed d sp + 10, count + cs)) ∧
    (¬ cs ≤ -stw → cs ≥ count →
      wrapAroundCorrection true false d sp stw count cs =
        some (wrapCorrectionSpeed d sp + 10, cs - count)) ∧
    (wrapAroundCorrection true false d sp stw count (-stw) =
      some (wrapCorrectionSpeed d sp + 10, count - stw)) := by
  refine ⟨fun h => ?_, fun h1 h2 => ?_, ?_⟩
  · simp [wrapAroundCorrection, h]
  · simp [wrapAroundCorrection, h1, h2]
  · simp [wrapAroundCorrection, sub_eq_add_neg]

/-- Witness for C3 amended: wrap-around on, autoplay off, index −1 with one
slide shown and count 5 schedules a correction to index 4 after 510 ms. -/
theorem wrapCorrection_spec_witness :
    wrapAroundCorrection true false false 500 1 5 (-1) = some (510, 4) := by
  have h := (wrapCorrection_spec false 500 1 5 (-1)).1 (by norm_num)
  rw [h]
  norm_num [wrapCorrectionSpeed]

/-- C5 counterexample: with autoplay on, no animation, wrap-around on,
count 3 and index 8 > count, the correction sets the index to 5, which does
not lie in [0, 3); the claim asserts the resulting index always lands in
[0, count). -/
theorem autoplayWrapCorrection_cex :
    autoplayWrapCorrection true false true 3 8 true = (some 5, true) ∧
    ¬ ((5 : ℤ) < 3) := by
  exact ⟨rfl, by norm_num⟩

/-- C5 amended: with autoplay active, wrap-around enabled, no animation in
progress, and a nonnegative count, the correction fires immediately: above
count the index becomes index − count, below 0 it becomes count + index,
and any pending autoplay timer is cancelled; the result lands in [0, count)
provided the triggering index was within one count of the valid range. -/
theorem autoplayWrapCorrection_spec (count cs : ℤ) (tp : Bool) (hc : 0 ≤ count) :
    (cs > count →
      autoplayWrapCorrection true false true count cs tp = (some (cs - count), tp)) ∧
    (cs < 0 →
      autoplayWrapCorrection true false true count cs tp = (some (count + cs), tp)) ∧
    (cs > count → cs < 2 * count → 0 ≤ cs - count ∧ cs - count < count) ∧
    (cs < 0 → -count ≤ cs → 0 ≤ count + cs ∧ count + cs < count) := by
  refine ⟨fun h => ?_, fun h => ?_, fun h1 h2 => by omega, fun h1 h2 => by omega⟩
  · simp [autoplayWrapCorrection, h]
  · have hng : ¬ cs > count := by omega
    simp [autoplayWrapCorrection, hng, h]

/-- Witness for C5 amended: count 3, index 5, a pending timer: the index
snaps immediately to 2 and the timer is cancelled, and 2 lies in [0, 3). -/
theorem autoplayWrapCorrection_spec_witness :
    autoplayWrapCorrection true false true 3 5 true = (some 2, true) ∧
    (0 ≤ (2 : ℤ) ∧ (2 : ℤ) < 3) :=
  ⟨by
    have h := (autoplayWrapCorrection_spec 3 5 true (by norm_num)).1 (by norm_num)
    simpa using h,
   by
    have h := (autoplayWrapCorrection_spec 3 5 true (by norm_num)).2.2.1 (by norm_num)
      (by norm_num)
    exact ⟨h.1, by omega⟩⟩

/-- C4: without wrap-around, nextSlide at or beyond count − slidesToScroll
and prevSlide at or below 0 leave the index unchanged and fire no slide
callbacks; otherwise both delegate to the index arithmetic and moveSlide.
With count 6, slidesToScroll 3, slidesToShow 3, from index 0 nextSlide
reaches 3 and a further nextSlide is blocked since 3 ≥ 6 − 3. -/
theorem slide_boundary_guards (d : Bool) (sp : ℕ) (cs count sts stw : ℤ) :
    (cs ≥ count - sts →
      (nextSlide false d sp cs count sts stw).newSlide = cs ∧
      (nextSlide false d sp cs count sts stw).beforeSlideInvoked = false ∧
      (nextSlide false d sp cs count sts stw).afterSlideInvoked = false) ∧
    (cs ≤ 0 →
      (prevSlide false d sp cs count sts).newSlide = cs ∧
      (prevSlide false d sp cs count sts).beforeSlideInvoked = false ∧
      (prevSlide false d sp cs count sts).afterSlideInvoked = false) ∧
    (cs < count - sts →
      nextSlide false d sp cs count sts stw =
        moveSlide (some (getNextMoveIndex false cs count sts stw)) d sp cs count) ∧
    (0 < cs →
      prevSlide false d sp cs count sts =
        moveSlide (some (getPrevMoveIndex false cs sts)) d sp cs count) ∧
    (nextSlide true d sp cs count sts stw =
      moveSlide (some (getNextMoveIndex true cs count sts stw)) d sp cs count) ∧
    (prevSlide true d sp cs count sts =
      moveSlide (some (getPrevMoveIndex true cs sts)) d sp cs count) ∧
    (nextSlide false d sp 0 6 3 3).newSlide = 3 ∧
    (nextSlide false d sp 3 6 3 3).newSlide = 3 ∧
    (nextSlide false d sp 3 6 3 3).beforeSlideInvoked = false ∧
    (nextSlide false d sp 3 6 3 3).afterSlideInvoked = false := by
  refine ⟨fun h => ?_, fun h => ?_, fun h => ?_, fun h => ?_, ?_, ?_, ?_, ?_, ?_, ?_⟩
  · have hg : ¬ cs < count - sts := by omega
    simp [nextSlide, hg, moveSlide]
  · have hg : ¬ cs > 0 := by omega
    simp [prevSlide, hg, moveSlide]
  · simp [nextSlide, h]
  · simp [prevSlide, h]
  · simp [nextSlide]
  · simp [prevSlide]
  · norm_num [nextSlide, moveSlide, getNextMoveIndex]
  · have hg : ¬ (3 : ℤ) < 6 - 3 := by norm_num
    simp [nextSlide, hg, moveSlide]
  · have hg : ¬ (3 : ℤ) < 6 - 3 := by norm_num
    simp [nextSlide, hg, moveSlide]
  · have hg : ¬ (3 : ℤ) < 6 - 3 := by norm_num
    simp [nextSlide, hg, moveSlide]

/-- Witness for C4: the guarded branches at concrete inputs: blocked
nextSlide at index 3, blocked prevSlide at index 0, delegating nextSlide
from index 0, and delegating prevSlide from index 3. -/
theorem slide_boundary_guards_witness :
    (nextSlide false false 500 3 6 3 3).newSlide = 3 ∧
    (nextSlide false false 500 3 6 3 3).beforeSlideInvoked = false ∧
    (prevSlide false false 500 0 6 3).newSlide = 0 ∧
    (nextSlide false false 500 0 6 3 3 =
      moveSlide (some (getNextMoveIndex false 0 6 3 3)) false 500 0 6) ∧
    (prevSlide false false 500 3 6 3 =
      moveSlide (some (getPrevMoveIndex false 3 3)) false 500 3 6) :=
  ⟨((slide_boundary_guards false 500 3 6 3 3).1 (by norm_num)).1,
   ((slide_boundary_guards false 500 3 6 3 3).1 (by norm_num)).2.1,
   ((slide_boundary_guards false 500 0 6 3 3).2.1 (by norm_num)).1,
   (slide_boundary_guards false 500 0 6 3 3).2.2.1 (by norm_num),
   (slide_boundary_guards false 500 3 6 3 3).2.2.2.1 (by norm_num)⟩

/-- C6: during an active drag whose tracked offset has not yet exceeded the
threshold, a move with raw delta m forms the frictioned delta 0.75 m and
candidate offset move + (0.75 m − prevMove); at a sticky edge (wrap off,
edge swiping disabled, dragging past either end) the offset is kept and only
prevMove advances; otherwise the candidate is committed exactly when
prevMove was nonzero, and prevMove advances to the frictioned delta. -/
theorem pointerMove_spec (wa de : Bool) (cs count stw : ℤ) (θ move prevMove m : ℚ)
    (hθ : |move| ≤ θ) :
    (wa = false → de = true →
      ((cs ≤ 0 ∧ move + (m * (3 / 4 : ℚ) - prevMove) ≤ 0) ∨
        (move + (m * (3 / 4 : ℚ) - prevMove) > 0 ∧ cs ≥ count - stw)) →
      handlePointerMove true true wa de cs count stw θ move prevMove m =
        ⟨move, m * (3 / 4 : ℚ), false⟩) ∧
    (¬ (wa = false ∧ de = true ∧
        ((cs ≤ 0 ∧ move + (m * (3 / 4 : ℚ) - prevMove) ≤ 0) ∨
          (move + (m * (3 / 4 : ℚ) - prevMove) > 0 ∧ cs ≥ count - stw))) →
      handlePointerMove true true wa de cs count stw θ move prevMove m =
        ⟨if prevMove ≠ 0 then move + (m * (3 / 4 : ℚ) - prevMove) else move,
          m * (3 / 4 : ℚ), false⟩) := by
  have hlt : ¬ |move| > θ := not_lt.mpr hθ
  constructor
  · intro hwa hde hedge
    simp only [handlePointerMove, Bool.and_self, Bool.not_true, Bool.false_eq_true,
      if_false, hlt, if_pos, hwa, hde]
    rw [if_pos ⟨trivial, trivial, hedge⟩]
  · intro hn
    simp only [handlePointerMove, Bool.and_self, Bool.not_true, Bool.false_eq_true,
      if_false]
    rw [if_neg hlt, if_neg hn]
    by_cases hp : prevMove ≠ 0
    · rw [if_pos hp, if_pos hp]
    · rw [if_neg hp, if_neg hp]

/-- Witness for C6: an in-progress drag (offset 10, threshold 50, previous
raw delta 2) with raw delta 4 away from any edge commits the candidate
offset 11 and advances prevMove to 3. -/
theorem pointerMove_spec_witness :
    handlePointerMove true true false false 1 5 1 50 10 2 4 = ⟨11, 3, false⟩ := by
  have h := (pointerMove_spec false false 1 5 1 50 10 2 4 (by norm_num)).2
    (by intro hc; exact absurd hc.2.1 (by norm_num))
  rw [h]
  norm_num

/-- C1 counterexample: with numSlides 5, slidesToShow 2, the sequence
report slide 0 at 100, deregister slide 0, report slide 1 at 150 has
numeric reports from two distinct slide indices, meeting the claimed
initialization threshold min(5, ceil 2) = 2, yet the hook still reports
auto: it counts currently registered entries, which never reach 2 here. -/
theorem adaptiveHeight_cex :
    (claimReportedIndices [((0 : ℤ), some (100 : ℚ)), (0, none), (1, some 150)]).length = 2 ∧
    adaptiveThreshold 5 2 = 2 ∧
    frameHeight true (runHeightEvents 5 2 [(0, some 100), (0, none), (1, some 150)]) =
      CSSHeight.auto := by
  refine ⟨by decide, by decide, by decide⟩

/-- C1 amended: frameHeight is auto with adaptive height off, and with it on
it is auto until some call leaves the currently registered collection with
at least min(numSlides, ceil(slidesToShow)) entries; from then on the flag
is sticky (deregistrations below the threshold do not reset it) and
frameHeight is the pixel value of max(0, max of currently registered
heights). With slidesToShow 2 and numSlides 5, reporting slide 0 at 100 and
slide 1 at 150 yields 150 px, and then deregistering slide 1 yields
100 px. -/
theorem adaptiveHeight_two_phase (n : ℕ) (stw : ℚ) :
    (∀ s : FrameHeightState, frameHeight false s = CSSHeight.auto) ∧
    (∀ s : FrameHeightState, s.initializedAdaptiveHeight = false →
      frameHeight true s = CSSHeight.auto) ∧
    (∀ s : FrameHeightState, s.initializedAdaptiveHeight = true →
      frameHeight true s = CSSHeight.px (maxVisibleHeight s.visibleHeights)) ∧
    (∀ (s : FrameHeightState) (i : ℤ) (ht : Option ℚ),
      s.initializedAdaptiveHeight = true →
      (handleVisibleSlideHeightChange n stw s i ht).initializedAdaptiveHeight = true) ∧
    (∀ (s : FrameHeightState) (i : ℤ) (ht : Option ℚ),
      (handleVisibleSlideHeightChange n stw s i ht).initializedAdaptiveHeight = true ↔
        (s.initializedAdaptiveHeight = true ∨
          ((handleVisibleSlideHeightChange n stw s i ht).visibleHeights.length : ℤ) ≥
            adaptiveThreshold n stw)) ∧
    (∀ l : List SlideHeight, 0 ≤ maxVisibleHeight l ∧
      ∀ sh ∈ l, sh.height ≤ maxVisibleHeight l) ∧
    frameHeight true (runHeightEvents 5 2 [(0, some 100), (1, some 150)]) =
      CSSHeight.px 150 ∧
    frameHeight true (runHeightEvents 5 2 [(0, some 100), (1, some 150), (1, none)]) =
      CSSHeight.px 100 := by
  refine ⟨fun s => rfl, fun s h => ?_, fun s h => ?_, fun s i ht h => ?_,
    fun s i ht => ?_, maxVisibleHeight_spec, by decide, by decide⟩
  · simp [frameHeight, h]
  · simp [frameHeight, h]
  · rw [hvshc_initialized, h, Bool.true_or]
  · rw [hvshc_initialized]
    simp [Bool.or_eq_true, decide_eq_true_eq]

/-- Witness for C1 amended: an initialized state with one registered slide
of height 100 reports 100 px, and one further deregistration keeps the
initialization flag set. -/
theorem adaptiveHeight_two_phase_witness :
    frameHeight true (⟨[⟨0, 100⟩], true⟩ : FrameHeightState) = CSSHeight.px 100 ∧
    (handleVisibleSlideHeightChange 5 2 (⟨[⟨0, 100⟩], true⟩ : FrameHeightState) 0
      none).initializedAdaptiveHeight = true := by
  constructor
  · have h := (adaptiveHeight_two_phase 5 2).2.2.1 ⟨[⟨0, 100⟩], true⟩ rfl
    rw [h]
    norm_num [maxVisibleHeight]
  · exact (adaptiveHeight_two_phase 5 2).2.2.2.1 ⟨[⟨0, 100⟩], true⟩ 0 none rfl

/-- C9: across any event sequence from the empty collection the registered
slide indices stay pairwise distinct; a numeric report for a present index
rewrites that entry in place and preserves the length, a numeric report for
an absent index appends exactly one entry at the end, and a null report
removes exactly the entries with that index. -/
theorem heightRegistry_invariant (n : ℕ) (stw : ℚ) :
    (∀ es : List (ℤ × Option ℚ),
      ((runHeightEvents n stw es).visibleHeights.map SlideHeight.slideIndex).Nodup) ∧
    (∀ (s : FrameHeightState) (i : ℤ) (h : ℚ),
      (∃ sh ∈ s.visibleHeights, sh.slideIndex = i) →
      (handleVisibleSlideHeightChange n stw s i (some h)).visibleHeights =
        s.visibleHeights.map (fun hi => if hi.slideIndex = i then ⟨i, h⟩ else hi) ∧
      (handleVisibleSlideHeightChange n stw s i (some h)).visibleHeights.length =
        s.visibleHeights.length) ∧
    (∀ (s : FrameHeightState) (i : ℤ) (h : ℚ),
      (∀ sh ∈ s.visibleHeights, sh.slideIndex ≠ i) →
      (handleVisibleSlideHeightChange n stw s i (some h)).visibleHeights =
        s.visibleHeights ++ [⟨i, h⟩]) ∧
    (∀ (s : FrameHeightState) (i : ℤ),
      (handleVisibleSlideHeightChange n stw s i none).visibleHeights =
        s.visibleHeights.filter (fun sh => decide (sh.slideIndex ≠ i))) := by
  refine ⟨?_, ?_, ?_, fun s i => hvshc_none n stw s i⟩
  · intro es
    exact run_nodup_aux n stw es initialFrameHeightState (by simp [initialFrameHeightState])
  · intro s i h hex
    obtain ⟨sh, hmem, hEq⟩ := hex
    have hf : s.visibleHeights.any (fun sh => decide (sh.slideIndex = i)) = true :=
      List.any_eq_true.mpr ⟨sh, hmem, by simp [hEq]⟩
    rw [hvshc_some, if_pos hf]
    exact ⟨rfl, by simp⟩
  · intro s i h hall
    have hf : ¬ s.visibleHeights.any (fun sh => decide (sh.slideIndex = i)) = true := by
      rw [List.any_eq_true]
      rintro ⟨sh, hmem, hdec⟩
      exact hall sh hmem (by simpa using hdec)
    rw [hvshc_some, if_neg hf]

/-- Witness for C9: re-reporting the registered slide 0 keeps the length at
one, and reporting the new slide 1 appends its entry at the end. -/
theorem heightRegistry_invariant_witness :
    (handleVisibleSlideHeightChange 5 2 (⟨[⟨0, 100⟩], false⟩ : FrameHeightState) 0
      (some 120)).visibleHeights.length = 1 ∧
    (handleVisibleSlideHeightChange 5 2 (⟨[⟨0, 100⟩], false⟩ : FrameHeightState) 1
      (some 120)).visibleHeights = [⟨0, 100⟩, ⟨1, 120⟩] := by
  constructor
  · exact ((heightRegistry_invariant 5 2).2.1 ⟨[⟨0, 100⟩], false⟩ 0 120
      ⟨⟨0, 100⟩, by simp, rfl⟩).2
  · have h := (heightRegistry_invariant 5 2).2.2.1 ⟨[⟨0, 100⟩], false⟩ 1 120
      (by
        intro sh hsh
        simp only [List.mem_singleton] at hsh
        subst hsh
        decide)
    rw [h]
    rfl

end Nuka
